import Mathlib

/-!
Verification of `backend/main.py` (mtc-assignment): the time normalizer
`_to_24h_hhmm` and the `/ramadan` fetch/filter pipeline `get_ramadan`.

Strings are modelled as `List Char` over the ASCII fragment relevant to the
spec (Python's `\d`, `\s` and `str.strip` additionally accept some non-ASCII
code points, which none of the claims exercise).
-/

namespace MTC

abbrev Str := List Char

/-- ASCII whitespace, as recognised by Python's `str.strip()` and `\s`. -/
def isWS (c : Char) : Bool :=
  c = ' ' || c = '\t' || c = '\n' || c = '\x0d' || c = '\x0b' || c = '\x0c'

/-- Python `str.strip()`: drop leading and trailing whitespace. -/
def pstrip (s : Str) : Str :=
  ((s.dropWhile isWS).reverse.dropWhile isWS).reverse

/-- Numeric value of a digit character. -/
def dval (c : Char) : Nat := c.toNat - 48

/-- `re.fullmatch(r"\d{1,2}:\d{2}", s)`: one or two digits, a colon, two digits. -/
def matchesFast : Str → Bool
  | [a, b, c, d] => a.isDigit && b = ':' && c.isDigit && d.isDigit
  | [a, b, c, d, e] => a.isDigit && b.isDigit && c = ':' && d.isDigit && e.isDigit
  | _ => false

/-- Python `int` on a digit string. -/
def digitsVal (l : Str) : Nat := l.foldl (fun a c => a * 10 + dval c) 0

/-- Python `f"{n}"` decimal rendering. -/
def natRepr (n : Nat) : Str := Nat.toDigits 10 n

/-- Python `f"{n:02d}"`: decimal rendering zero-padded to width two. -/
def pad2 (n : Nat) : Str := if n < 10 then '0' :: natRepr n else natRepr n

/-- The fast path of `_to_24h_hhmm`: `hh, mm = s.split(":")` followed by
`f"{int(hh):02d}:{int(mm):02d}"`.  (Under `matchesFast` the string contains
exactly one colon, so splitting at the first colon is the Python split.) -/
def to24hFast (s : Str) : Str :=
  pad2 (digitsVal (s.takeWhile (fun c => c ≠ ':')))
    ++ ':' :: pad2 (digitsVal ((s.dropWhile (fun c => c ≠ ':')).drop 1))

/-!
`datetime.strptime(s, "%I:%M %p")` compiles the format to the anchored regex
`(1[0-2]|0[1-9]|[1-9]):([0-5]\d|\d)\s+(am|pm)` (case-insensitive meridiem),
requiring the whole string to be consumed.  The alternations are deterministic
here (whenever a longer alternative matches but the rest of the regex fails,
the shorter one fails too), so a first-match parser is faithful.
-/

/-- `%I`: hour `1[0-2]|0[1-9]|[1-9]`, returning the value and the rest. -/
def parseHour : Str → Option (Nat × Str)
  | [] => none
  | [c] => if '1' ≤ c && c ≤ '9' then some (dval c, []) else none
  | a :: c :: rest =>
      if a = '1' then
        if '0' ≤ c && c ≤ '2' then some (10 + dval c, rest)
        else some (1, c :: rest)
      else if a = '0' then
        if '1' ≤ c && c ≤ '9' then some (dval c, rest) else none
      else if '1' ≤ a && a ≤ '9' then some (dval a, c :: rest) else none

/-- `%M`: minute `[0-5]\d|\d`. -/
def parseMin : Str → Option (Nat × Str)
  | a :: b :: rest =>
      if ('0' ≤ a && a ≤ '5') && b.isDigit then some (dval a * 10 + dval b, rest)
      else if a.isDigit then some (dval a, b :: rest) else none
  | [a] => if a.isDigit then some (dval a, []) else none
  | [] => none

/-- `\s+` between minute and meridiem: at least one whitespace character. -/
def parseWSplus : Str → Option Str
  | c :: rest => if isWS c then some (rest.dropWhile isWS) else none
  | [] => none

/-- `%p` at end of input: `am`/`pm`, case-insensitive; `some true` means PM. -/
def parseMeridiem : Str → Option Bool
  | [a, m] =>
      if (a = 'A' || a = 'a') && (m = 'M' || m = 'm') then some false
      else if (a = 'P' || a = 'p') && (m = 'M' || m = 'm') then some true
      else none
  | _ => none

/-- `datetime.strptime(s, "%I:%M %p")` reduced to the (hour24, minute) pair
that `strftime("%H:%M")` will render: AM maps hour 12 to 0, PM maps hours
1–11 to 13–23. -/
def strptimeIMp (s : Str) : Option (Nat × Nat) :=
  (parseHour s).bind (fun hr =>
    match hr.2 with
    | [] => none
    | c :: r2 =>
      if c = ':' then
        (parseMin r2).bind (fun mr =>
          (parseWSplus mr.2).bind (fun r4 =>
            (parseMeridiem r4).map (fun pm =>
              ((if pm then (if hr.1 = 12 then 12 else hr.1 + 12)
                else (if hr.1 = 12 then 0 else hr.1)), mr.1))))
      else none)

/-- `_to_24h_hhmm` on character lists: strip, try the fast path, otherwise
`strptime`; `none` models the raised `ValueError`. -/
def to24hL (s : Str) : Option Str :=
  let t := pstrip s
  if matchesFast t then some (to24hFast t)
  else (strptimeIMp t).map (fun hm => pad2 hm.1 ++ ':' :: pad2 hm.2)

/-- `_to_24h_hhmm` on `String`. -/
def to_24h_hhmm (s : String) : Option String :=
  (to24hL s.data).map (fun l => String.mk l)

example : to_24h_hhmm ("5:42 AM") = some ("05:42") := by decide
example : to_24h_hhmm ("5:48 PM") = some ("17:48") := by decide
example : to_24h_hhmm ("12:00 AM") = some ("00:00") := by decide
example : to_24h_hhmm ("12:00 PM") = some ("12:00") := by decide
example : to_24h_hhmm ("5:42 am") = some ("05:42") := by decide
example : to_24h_hhmm ("5:4 AM") = some ("05:04") := by decide
example : to_24h_hhmm ("99:99") = some ("99:99") := by decide
example : to_24h_hhmm ("0:42 AM") = none := by decide
example : to_24h_hhmm ("5:60 AM") = none := by decide
example : to_24h_hhmm ("5:42AM") = none := by decide
example : to_24h_hhmm ("  5:42 PM  ") = some ("17:42") := by decide
example : to_24h_hhmm ("13:00 AM") = none := by decide
example : to_24h_hhmm ("7:5 pM") = some ("19:05") := by decide

/-!
## The `/ramadan` pipeline

`get_ramadan` (after the HTTP fetch, which is outside the embedded code) takes
the decoded JSON payload and produces either a list of clean records, an
HTTP 502 (`shapeError` for a failing `payload["data"]["fasting"]` subscript,
`emptyError` when the filtered list is empty), or an unhandled Python
exception (`crash`, surfaced by the framework as HTTP 500).  Records are
modelled as association lists to keep the exact keys and their order.
-/

/-- Decoded JSON values (numbers restricted to integers; the claims use no
floats). -/
inductive Json where
  | null
  | bool (b : Bool)
  | num (n : Int)
  | str (s : String)
  | arr (xs : List Json)
  | obj (fs : List (String × Json))

/-- Python `x[k]` for a string key: succeeds only on a dict containing the
key; a `KeyError`/`TypeError` is `none` (caught by the shape `try`). -/
def subscript : Json → String → Option Json
  | Json.obj fs, k => fs.lookup k
  | _, _ => none

/-- `payload["data"]["fasting"]`. -/
def dataFasting (p : Json) : Option Json :=
  (subscript p ("data")).bind (fun d => subscript d ("fasting"))

/-- Python `for day in x`: lists yield elements, strings yield one-character
strings, dicts yield their keys; other values raise `TypeError` (`none`,
uncaught). -/
def pyIter : Json → Option (List Json)
  | Json.arr xs => some xs
  | Json.str s => some (s.data.map (fun c => Json.str (String.mk [c])))
  | Json.obj fs => some (fs.map (fun kv => Json.str kv.1))
  | _ => none

/-- Python `d.get(k, dflt)`: `none` models the `AttributeError` on a
non-dict (uncaught); a missing key yields the default, a key stored with
JSON null yields Python `None` (both are `Json.null`-like values). -/
def pyGetD (d : Json) (k : String) (dflt : Json) : Option Json :=
  match d with
  | Json.obj fs => some ((fs.lookup k).getD dflt)
  | _ => none

/-- Python `d.get(k)` (default `None`). -/
def pyGet (d : Json) (k : String) : Option Json := pyGetD d k Json.null

/-- Python truthiness of a decoded JSON value. -/
def truthy : Json → Bool
  | Json.null => false
  | Json.bool b => b
  | Json.num n => n != 0
  | Json.str s => !s.isEmpty
  | Json.arr xs => !xs.isEmpty
  | Json.obj fs => !fs.isEmpty

/-- `_to_24h_hhmm` applied to a decoded JSON value: on a string it may raise
`ValueError` (`some none`, caught and skipped); on anything else
`time_str.strip()` raises `AttributeError` (`none`, uncaught). -/
def normTime : Json → Option (Option String)
  | Json.str s => some (to_24h_hhmm s)
  | _ => none

/-- One iteration of the `for day in fasting_days` loop body:
`none` = uncaught exception, `some none` = `continue` (record dropped),
`some (some r)` = `out.append(r)`. -/
def processDay (day : Json) : Option (Option (List (String × Json))) :=
  match pyGet day ("date") with
  | none => none
  | some dateV =>
    match pyGetD day ("time") (Json.obj []) with
    | none => none
    | some timeObj =>
      match pyGet timeObj ("sahur") with
      | none => none
      | some sahurV =>
        match pyGet timeObj ("iftar") with
        | none => none
        | some iftarV =>
          if !(truthy dateV && truthy sahurV && truthy iftarV) then some none
          else
            match normTime sahurV with
            | none => none
            | some none => some none
            | some (some s24) =>
              match normTime iftarV with
              | none => none
              | some none => some none
              | some (some i24) =>
                some (some
                  [(("date"), dateV),
                   (("sahur"), Json.str s24),
                   (("iftar"), Json.str i24),
                   (("hijri_readable"), (pyGet day ("hijri_readable")).getD Json.null),
                   (("day"), (pyGet day ("day")).getD Json.null)])

/-- The whole loop: `none` when some iteration raises, otherwise the list of
appended records in order. -/
def processAll : List Json → Option (List (List (String × Json)))
  | [] => some []
  | d :: rest =>
    match processDay d with
    | none => none
    | some none => processAll rest
    | some (some r) => (processAll rest).map (fun t => r :: t)

/-- Result of the endpoint after the upstream body has been decoded. -/
inductive Outcome where
  | ok (records : List (List (String × Json)))
  | shapeError
  | emptyError
  | crash

/-- `get_ramadan` from the decoded payload on: shape check, loop, empty
check. -/
def get_ramadan_core (payload : Json) : Outcome :=
  match dataFasting payload with
  | none => Outcome.shapeError
  | some fasting =>
    match pyIter fasting with
    | none => Outcome.crash
    | some days =>
      match processAll days with
      | none => Outcome.crash
      | some out => if out.isEmpty then Outcome.emptyError else Outcome.ok out

/-- An upstream payload whose `data.fasting` is the given list. -/
def mkPayload (days : List Json) : Json :=
  Json.obj [(("data"), Json.obj [(("fasting"), Json.arr days)])]

example :
    get_ramadan_core (mkPayload
      [Json.obj [(("date"), Json.str ("2025-03-01")), (("day"), Json.num 1),
        (("hijri_readable"), Json.str ("1 Ramadan 1446")),
        (("time"), Json.obj [(("sahur"), Json.str ("5:42 AM")),
          (("iftar"), Json.str ("5:48 PM"))])]])
      = Outcome.ok
        [[(("date"), Json.str ("2025-03-01")),
          (("sahur"), Json.str ("05:42")),
          (("iftar"), Json.str ("17:48")),
          (("hijri_readable"), Json.str ("1 Ramadan 1446")),
          (("day"), Json.num 1)]] := rfl

example : get_ramadan_core (mkPayload []) = Outcome.emptyError := rfl

example : get_ramadan_core (Json.obj [(("data"), Json.obj [])]) = Outcome.shapeError := rfl

example :
    get_ramadan_core (Json.obj [(("data"), Json.obj [(("fasting"), Json.num 0)])])
      = Outcome.crash := rfl

example :
    get_ramadan_core (mkPayload
      [Json.obj [(("date"), Json.str ("2025-03-02")),
        (("time"), Json.obj [(("iftar"), Json.str ("5:48 PM"))])]])
      = Outcome.emptyError := rfl

/-! ### Character facts -/

lemma isDigit_toNat {c : Char} (h : c.isDigit = true) : 48 ≤ c.toNat ∧ c.toNat ≤ 57 := by
  simp only [Char.isDigit, Bool.and_eq_true, decide_eq_true_eq] at h
  obtain ⟨h1, h2⟩ := h
  exact ⟨UInt32.le_toNat_of_le (by norm_num) h1, UInt32.toNat_le_of_le (by norm_num) h2⟩

lemma digit_enum {c : Char} (h : c.isDigit = true) :
    c ∈ ['0', '1', '2', '3', '4', '5', '6', '7', '8', '9'] := by
  obtain ⟨h1, h2⟩ := isDigit_toNat h
  have hc := (Char.ofNat_toNat c).symm
  set n := c.toNat with hn
  interval_cases n <;> rw [hc] <;> decide

lemma isDigit_facts {c : Char} (h : c.isDigit = true) :
    isWS c = false ∧ c ≠ ':' ∧ dval c ≤ 9 ∧ Nat.digitChar (dval c) = c := by
  have := digit_enum h
  fin_cases this <;> refine ⟨by decide, by decide, by decide, by decide⟩

lemma char_le_enum {c : Char} (h1 : '0' ≤ c) (h2 : c ≤ '9') :
    c ∈ ['0', '1', '2', '3', '4', '5', '6', '7', '8', '9'] := by
  rw [Char.le_def] at h1 h2
  have h1' : 48 ≤ c.toNat := UInt32.le_toNat_of_le (by norm_num) h1
  have h2' : c.toNat ≤ 57 := UInt32.toNat_le_of_le (by norm_num) h2
  have hc := (Char.ofNat_toNat c).symm
  set n := c.toNat with hn
  interval_cases n <;> rw [hc] <;> decide

lemma range19_enum {c : Char} (h1 : '1' ≤ c) (h2 : c ≤ '9') :
    c ∈ ['1', '2', '3', '4', '5', '6', '7', '8', '9'] := by
  have := char_le_enum (le_trans (by decide) h1) h2
  fin_cases this <;> first | decide | exact absurd h1 (by decide)

lemma range02_enum {c : Char} (h1 : '0' ≤ c) (h2 : c ≤ '2') :
    c ∈ ['0', '1', '2'] := by
  have := char_le_enum h1 (le_trans h2 (by decide))
  fin_cases this <;> first | decide | exact absurd h2 (by decide)

lemma range05_enum {c : Char} (h1 : '0' ≤ c) (h2 : c ≤ '5') :
    c ∈ ['0', '1', '2', '3', '4', '5'] := by
  have := char_le_enum h1 (le_trans h2 (by decide))
  fin_cases this <;> first | decide | exact absurd h2 (by decide)

/-! ### Parser bounds -/

lemma parseHour_bound {s r : Str} {h : Nat} (hp : parseHour s = some (h, r)) :
    1 ≤ h ∧ h ≤ 12 := by
  match s with
  | [] => simp [parseHour] at hp
  | [c] =>
    simp only [parseHour] at hp
    split_ifs at hp with hc
    simp only [Option.some.injEq, Prod.mk.injEq] at hp
    obtain ⟨rfl, -⟩ := hp
    simp only [Bool.and_eq_true, decide_eq_true_eq] at hc
    have := range19_enum hc.1 hc.2
    fin_cases this <;> decide
  | a :: c :: rest =>
    simp only [parseHour] at hp
    split_ifs at hp with h1 h2 h3 h4 h5
    · simp only [Option.some.injEq, Prod.mk.injEq] at hp
      obtain ⟨rfl, -⟩ := hp
      simp only [Bool.and_eq_true, decide_eq_true_eq] at h2
      have := range02_enum h2.1 h2.2
      fin_cases this <;> decide
    · simp only [Option.some.injEq, Prod.mk.injEq] at hp
      obtain ⟨rfl, -⟩ := hp
      omega
    · simp only [Option.some.injEq, Prod.mk.injEq] at hp
      obtain ⟨rfl, -⟩ := hp
      simp only [Bool.and_eq_true, decide_eq_true_eq] at h4
      have := range19_enum h4.1 h4.2
      fin_cases this <;> decide
    · simp only [Option.some.injEq, Prod.mk.injEq] at hp
      obtain ⟨rfl, -⟩ := hp
      simp only [Bool.and_eq_true, decide_eq_true_eq] at h5
      have := range19_enum h5.1 h5.2
      fin_cases this <;> decide

lemma parseMin_bound {s r : Str} {m : Nat} (hp : parseMin s = some (m, r)) :
    m ≤ 59 := by
  match s with
  | [] => simp [parseMin] at hp
  | [a] =>
    simp only [parseMin] at hp
    split_ifs at hp with ha
    simp only [Option.some.injEq, Prod.mk.injEq] at hp
    obtain ⟨rfl, -⟩ := hp
    have := digit_enum ha
    fin_cases this <;> decide
  | a :: b :: rest =>
    simp only [parseMin] at hp
    split_ifs at hp with h1 h2
    · simp only [Option.some.injEq, Prod.mk.injEq] at hp
      obtain ⟨rfl, -⟩ := hp
      simp only [Bool.and_eq_true, decide_eq_true_eq] at h1
      have ha := range05_enum h1.1.1 h1.1.2
      have hb := digit_enum h1.2
      fin_cases ha <;> fin_cases hb <;> decide
    · simp only [Option.some.injEq, Prod.mk.injEq] at hp
      obtain ⟨rfl, -⟩ := hp
      have := digit_enum h2
      fin_cases this <;> decide

/-! ### Padding and strip facts -/

lemma pad2_eq (n : Nat) (h : n ≤ 99) :
    pad2 n = [Nat.digitChar (n / 10), Nat.digitChar (n % 10)] := by
  interval_cases n <;> rfl

lemma digitChar_isDigit {d : Nat} (h : d ≤ 9) : (Nat.digitChar d).isDigit = true := by
  interval_cases d <;> decide

lemma dval_digitChar {d : Nat} (h : d ≤ 9) : dval (Nat.digitChar d) = d := by
  interval_cases d <;> decide

lemma digitsVal_single (a : Char) : digitsVal [a] = dval a := by
  simp [digitsVal]

lemma digitsVal_pair (a b : Char) : digitsVal [a, b] = dval a * 10 + dval b := by
  simp [digitsVal]

lemma digitsVal_pad2 (n : Nat) (h : n ≤ 99) : digitsVal (pad2 n) = n := by
  rw [pad2_eq n h, digitsVal_pair, dval_digitChar (by omega), dval_digitChar (by omega)]
  omega

lemma dropWhile_eq_self_of_all {s : Str} (h : ∀ c ∈ s, isWS c = false) :
    s.dropWhile isWS = s := by
  cases s with
  | nil => rfl
  | cons a t => simp [List.dropWhile_cons, h a (List.mem_cons_self a t)]

lemma pstrip_eq_self {s : Str} (h : ∀ c ∈ s, isWS c = false) : pstrip s = s := by
  have h2 : ∀ c ∈ s.reverse, isWS c = false := fun c hc => h c (List.mem_reverse.mp hc)
  unfold pstrip
  rw [dropWhile_eq_self_of_all h, dropWhile_eq_self_of_all h2, List.reverse_reverse]

lemma matchesFast_inv {t : Str} (h : matchesFast t = true) :
    (∃ a c d, t = [a, ':', c, d] ∧ a.isDigit ∧ c.isDigit ∧ d.isDigit) ∨
    (∃ a b c d, t = [a, b, ':', c, d] ∧
      a.isDigit ∧ b.isDigit ∧ c.isDigit ∧ d.isDigit) := by
  rcases t with _ | ⟨a, _ | ⟨b, _ | ⟨c, _ | ⟨d, _ | ⟨e, _ | ⟨f, u⟩⟩⟩⟩⟩⟩
  · simp [matchesFast] at h
  · simp [matchesFast] at h
  · simp [matchesFast] at h
  · simp [matchesFast] at h
  · simp only [matchesFast, Bool.and_eq_true, decide_eq_true_eq] at h
    exact Or.inl ⟨a, c, d, by rw [h.1.1.2], h.1.1.1, h.1.2, h.2⟩
  · simp only [matchesFast, Bool.and_eq_true, decide_eq_true_eq] at h
    exact Or.inr ⟨a, b, d, e, by rw [h.1.1.2], h.1.1.1.1, h.1.1.1.2, h.1.2, h.2⟩
  · simp [matchesFast] at h

/-- On a fast-path string the computed hour and minute are the two digit
groups, both at most 99. -/
lemma to24hFast_split {t : Str} (h : matchesFast t = true) :
    ∃ hh mm, hh ≤ 99 ∧ mm ≤ 99 ∧ to24hFast t = pad2 hh ++ ':' :: pad2 mm := by
  rcases matchesFast_inv h with ⟨a, c, d, rfl, ha, hc, hd⟩ | ⟨a, b, c, d, rfl, ha, hb, hc, hd⟩
  · refine ⟨dval a, dval c * 10 + dval d, ?_, ?_, ?_⟩
    · have := (isDigit_facts ha).2.2.1; omega
    · have h1 := (isDigit_facts hc).2.2.1
      have h2 := (isDigit_facts hd).2.2.1
      omega
    · have hane := (isDigit_facts ha).2.1
      unfold to24hFast
      rw [List.takeWhile_cons_of_pos (by simpa using hane),
          List.dropWhile_cons_of_pos (by simpa using hane)]
      simp [digitsVal_single, digitsVal_pair]
  · refine ⟨dval a * 10 + dval b, dval c * 10 + dval d, ?_, ?_, ?_⟩
    · have h1 := (isDigit_facts ha).2.2.1
      have h2 := (isDigit_facts hb).2.2.1
      omega
    · have h1 := (isDigit_facts hc).2.2.1
      have h2 := (isDigit_facts hd).2.2.1
      omega
    · have hane := (isDigit_facts ha).2.1
      have hbne := (isDigit_facts hb).2.1
      unfold to24hFast
      rw [List.takeWhile_cons_of_pos (by simpa using hane),
          List.takeWhile_cons_of_pos (by simpa using hbne),
          List.dropWhile_cons_of_pos (by simpa using hane),
          List.dropWhile_cons_of_pos (by simpa using hbne)]
      simp [digitsVal_pair]

lemma strptimeIMp_bound {t : Str} {h m : Nat} (hs : strptimeIMp t = some (h, m)) :
    h ≤ 23 ∧ m ≤ 59 := by
  simp only [strptimeIMp, Option.bind_eq_some] at hs
  obtain ⟨⟨h12, r1⟩, hph, hrest⟩ := hs
  cases r1 with
  | nil => simp at hrest
  | cons c r2 =>
    simp only at hrest
    by_cases hcolon : c = ':'
    · rw [if_pos hcolon] at hrest
      simp only [Option.bind_eq_some, Option.map_eq_some'] at hrest
      obtain ⟨⟨mv, r3⟩, hpm, r4, hws, pm, hmer, heq⟩ := hrest
      have hb := parseHour_bound hph
      have hbm := parseMin_bound hpm
      simp only [Prod.mk.injEq] at heq
      obtain ⟨rfl, rfl⟩ := heq
      obtain ⟨hb1, hb2⟩ := hb
      constructor
      · split_ifs with e1 e2 e3
        · exact by decide
        · have h11 : h12 ≤ 11 := by omega
          exact le_trans (Nat.add_le_add_right h11 12) (by decide)
        · exact Nat.zero_le 23
        · exact le_trans hb2 (by decide)
      · exact hbm
    · rw [if_neg hcolon] at hrest
      exact absurd hrest (by simp)

/-- Every successful output of `_to_24h_hhmm` is `pad2 hh ++ ':' :: pad2 mm`
with `hh, mm ≤ 99`. -/
lemma to24hL_shape {s y : Str} (hy : to24hL s = some y) :
    ∃ hh mm, hh ≤ 99 ∧ mm ≤ 99 ∧ y = pad2 hh ++ ':' :: pad2 mm := by
  unfold to24hL at hy
  by_cases hf : matchesFast (pstrip s)
  · rw [if_pos hf] at hy
    obtain ⟨hh, mm, h1, h2, h3⟩ := to24hFast_split hf
    exact ⟨hh, mm, h1, h2, by rw [← Option.some.inj hy, h3]⟩
  · rw [if_neg hf] at hy
    simp only [Option.map_eq_some'] at hy
    obtain ⟨⟨hh, mm⟩, hs, rfl⟩ := hy
    have := strptimeIMp_bound hs
    exact ⟨hh, mm, by omega, by omega, rfl⟩

/-- `_to_24h_hhmm` maps any rendered `HH:MM` pair (two digits each) to
itself. -/
lemma to24hL_pad {hh mm : Nat} (h1 : hh ≤ 99) (h2 : mm ≤ 99) :
    to24hL (pad2 hh ++ ':' :: pad2 mm) = some (pad2 hh ++ ':' :: pad2 mm) := by
  have ha : (Nat.digitChar (hh / 10)).isDigit = true := digitChar_isDigit (by omega)
  have hb : (Nat.digitChar (hh % 10)).isDigit = true := digitChar_isDigit (by omega)
  have hc : (Nat.digitChar (mm / 10)).isDigit = true := digitChar_isDigit (by omega)
  have hd : (Nat.digitChar (mm % 10)).isDigit = true := digitChar_isDigit (by omega)
  have hv1 : digitsVal [Nat.digitChar (hh / 10), Nat.digitChar (hh % 10)] = hh := by
    rw [digitsVal_pair, dval_digitChar (by omega), dval_digitChar (by omega)]
    omega
  have hv2 : digitsVal [Nat.digitChar (mm / 10), Nat.digitChar (mm % 10)] = mm := by
    rw [digitsVal_pair, dval_digitChar (by omega), dval_digitChar (by omega)]
    omega
  rw [pad2_eq hh h1, pad2_eq mm h2]
  have hlist : [Nat.digitChar (hh / 10), Nat.digitChar (hh % 10)] ++ ':' ::
      [Nat.digitChar (mm / 10), Nat.digitChar (mm % 10)]
      = [Nat.digitChar (hh / 10), Nat.digitChar (hh % 10), ':',
         Nat.digitChar (mm / 10), Nat.digitChar (mm % 10)] := rfl
  rw [hlist]
  unfold to24hL
  have hstrip : pstrip [Nat.digitChar (hh / 10), Nat.digitChar (hh % 10), ':',
      Nat.digitChar (mm / 10), Nat.digitChar (mm % 10)]
      = [Nat.digitChar (hh / 10), Nat.digitChar (hh % 10), ':',
         Nat.digitChar (mm / 10), Nat.digitChar (mm % 10)] := by
    apply pstrip_eq_self
    intro x hx
    simp only [List.mem_cons, List.not_mem_nil, or_false] at hx
    rcases hx with rfl | rfl | rfl | rfl | rfl
    · exact (isDigit_facts ha).1
    · exact (isDigit_facts hb).1
    · decide
    · exact (isDigit_facts hc).1
    · exact (isDigit_facts hd).1
  simp only [hstrip]
  have hfast : matchesFast [Nat.digitChar (hh / 10), Nat.digitChar (hh % 10), ':',
      Nat.digitChar (mm / 10), Nat.digitChar (mm % 10)] = true := by
    simp [matchesFast, ha, hb, hc, hd]
  rw [if_pos hfast]
  unfold to24hFast
  rw [List.takeWhile_cons_of_pos (by simpa using (isDigit_facts ha).2.1),
      List.takeWhile_cons_of_pos (by simpa using (isDigit_facts hb).2.1),
      List.takeWhile_cons_of_neg (by simp),
      List.dropWhile_cons_of_pos (by simpa using (isDigit_facts ha).2.1),
      List.dropWhile_cons_of_pos (by simpa using (isDigit_facts hb).2.1),
      List.dropWhile_cons_of_neg (by simp)]
  simp only [List.drop_succ_cons, List.drop_zero]
  rw [show ([Nat.digitChar (hh / 10), Nat.digitChar (hh % 10)] : Str)
        = [Nat.digitChar (hh / 10)] ++ [Nat.digitChar (hh % 10)] from rfl] at hv1
  rw [show ([Nat.digitChar (hh / 10), Nat.digitChar (hh % 10)] : Str)
        = [Nat.digitChar (hh / 10)] ++ [Nat.digitChar (hh % 10)] from rfl]
  rw [hv1, hv2, pad2_eq hh h1, pad2_eq mm h2]
  rfl

/-! ## Claim theorems for the Time Normalizer -/

/-- The 12-to-24-hour conversion `strptime` applies: AM maps 12 to 0, PM maps
1–11 to 13–23 and keeps 12. -/
def hour24 (h : Nat) (pm : Bool) : Nat :=
  if pm then (if h = 12 then 12 else h + 12) else (if h = 12 then 0 else h)

/-- The meridiem suffix characters. -/
def meridiemStr (pm : Bool) : Str := if pm then ['P', 'M'] else ['A', 'M']

/-- Statement of C1 at one parameter tuple: the rendered `H:MM AM/PM` input
normalizes to the zero-padded 24-hour rendering. -/
def c1Ok (h m : Nat) (pad pm : Bool) : Prop :=
  to24hL ((if pad then pad2 h else natRepr h) ++ ':' :: pad2 m
      ++ ' ' :: meridiemStr pm)
    = some (pad2 (hour24 h pm) ++ ':' :: pad2 m)

instance c1OkDec (h m : Nat) (pad pm : Bool) : Decidable (c1Ok h m pad pm) := by
  unfold c1Ok; infer_instance

/-- C1: for every input `H:MM AM`/`H:MM PM` (hour 1–12, rendered with one or
two digits; two-digit minute 00–59), `_to_24h_hhmm` succeeds and returns the
zero-padded 24-hour rendering, with 12 AM mapped to hour 00, 12 PM to 12 and
1 PM to 13. -/
theorem c1_twelve_hour_conversion (h m : Nat) (pad pm : Bool)
    (hh1 : 1 ≤ h) (hh2 : h ≤ 12) (hm : m ≤ 59) :
    to24hL ((if pad then pad2 h else natRepr h) ++ ':' :: pad2 m
        ++ ' ' :: meridiemStr pm)
      = some (pad2 (hour24 h pm) ++ ':' :: pad2 m) := by
  have H : ∀ h', h' < 13 → 1 ≤ h' → ∀ m', m' < 60 →
      (c1Ok h' m' true true ∧ c1Ok h' m' true false ∧
       c1Ok h' m' false true ∧ c1Ok h' m' false false) := by decide
  obtain ⟨p1, p2, p3, p4⟩ := H h (by omega) hh1 m (by omega)
  cases pad <;> cases pm
  · exact p4
  · exact p3
  · exact p2
  · exact p1

/-- C1 witness: `12:00 AM` normalizes to `00:00`. -/
theorem c1_witness :
    to24hL ['1', '2', ':', '0', '0', ' ', 'A', 'M'] = some ['0', '0', ':', '0', '0'] :=
  (c1_twelve_hour_conversion 12 0 false false (by decide) (by decide)
    (by decide)).symm.trans (by decide) |>.symm

/-- C6: on any input matching the fast-path pattern the normalizer splits at
the colon, parses both digit groups as integers, and re-renders them
zero-padded to two digits each, with no range validation of hour or minute. -/
theorem c6_fast_path_passthrough (s : Str) (h : matchesFast s = true) :
    to24hL s = some (pad2 (digitsVal (s.takeWhile (fun c => c ≠ ':')))
      ++ ':' :: pad2 (digitsVal ((s.dropWhile (fun c => c ≠ ':')).drop 1))) := by
  have hstrip : pstrip s = s := by
    apply pstrip_eq_self
    intro x hx
    rcases matchesFast_inv h with ⟨a, c, d, rfl, ha, hc, hd⟩ |
      ⟨a, b, c, d, rfl, ha, hb, hc, hd⟩
    · simp only [List.mem_cons, List.not_mem_nil, or_false] at hx
      rcases hx with rfl | rfl | rfl | rfl
      · exact (isDigit_facts ha).1
      · decide
      · exact (isDigit_facts hc).1
      · exact (isDigit_facts hd).1
    · simp only [List.mem_cons, List.not_mem_nil, or_false] at hx
      rcases hx with rfl | rfl | rfl | rfl | rfl
      · exact (isDigit_facts ha).1
      · exact (isDigit_facts hb).1
      · decide
      · exact (isDigit_facts hc).1
      · exact (isDigit_facts hd).1
  simp only [to24hL, hstrip, if_pos h]
  rfl

/-- C6 witness: `99:99` (hour and minute both out of range) is passed through
unchanged. -/
theorem c6_witness :
    matchesFast ['9', '9', ':', '9', '9'] = true ∧
      to24hL ['9', '9', ':', '9', '9'] = some ['9', '9', ':', '9', '9'] :=
  ⟨by decide, (c6_fast_path_passthrough ['9', '9', ':', '9', '9'] (by decide)).trans
    (by decide)⟩

/-- C9: the normalizer is idempotent on its successes: every output, fed back
in, succeeds and returns itself. -/
theorem c9_idempotent (s y : String) (h : to_24h_hhmm s = some y) :
    to_24h_hhmm y = some y := by
  unfold to_24h_hhmm at h ⊢
  simp only [Option.map_eq_some'] at h ⊢
  obtain ⟨l, hl, rfl⟩ := h
  obtain ⟨hh, mm, h1, h2, rfl⟩ := to24hL_shape hl
  exact ⟨pad2 hh ++ ':' :: pad2 mm, to24hL_pad h1 h2, rfl⟩

/-- C9 witness: `5:42 PM` normalizes to `17:48`-style output `17:42`, which
normalizes to itself. -/
theorem c9_witness : to_24h_hhmm ("17:42") = some ("17:42") :=
  c9_idempotent ("5:42 PM") ("17:42") (by decide)

/-! ## Pipeline helper lemmas -/

/-- Inverting a successful run of `get_ramadan_core`. -/
lemma core_ok_inv {p : Json} {out} (h : get_ramadan_core p = Outcome.ok out) :
    ∃ fasting days, dataFasting p = some fasting ∧ pyIter fasting = some days ∧
      processAll days = some out ∧ out ≠ [] := by
  unfold get_ramadan_core at h
  cases h1 : dataFasting p with
  | none => rw [h1] at h; simp at h
  | some fasting =>
    rw [h1] at h
    simp only [] at h
    cases h2 : pyIter fasting with
    | none => rw [h2] at h; simp at h
    | some days =>
      rw [h2] at h
      simp only [] at h
      cases h3 : processAll days with
      | none => rw [h3] at h; simp at h
      | some o =>
        rw [h3] at h
        simp only [] at h
        by_cases he : o.isEmpty
        · rw [if_pos he] at h; simp at h
        · rw [if_neg he] at h
          simp only [Outcome.ok.injEq] at h
          subst h
          exact ⟨fasting, days, rfl, h2, h3, by simpa using he⟩

/-- Every record of the loop output was emitted by some iteration. -/
lemma processAll_mem {days : List Json} {out}
    (h : processAll days = some out) :
    ∀ r ∈ out, ∃ d ∈ days, processDay d = some (some r) := by
  induction days generalizing out with
  | nil =>
    simp only [processAll, Option.some.injEq] at h
    subst h
    simp
  | cons d rest ih =>
    intro r hr
    simp only [processAll] at h
    cases hd : processDay d with
    | none => rw [hd] at h; simp at h
    | some o =>
      rw [hd] at h
      cases o with
      | none =>
        obtain ⟨d2, hmem, hp⟩ := ih h r hr
        exact ⟨d2, List.mem_cons_of_mem d hmem, hp⟩
      | some rec =>
        simp only [Option.map_eq_some'] at h
        obtain ⟨t, ht, rfl⟩ := h
        rcases List.mem_cons.mp hr with rfl | hr2
        · exact ⟨d, List.mem_cons_self d rest, hd⟩
        · obtain ⟨d2, hmem, hp⟩ := ih ht r hr2
          exact ⟨d2, List.mem_cons_of_mem d hmem, hp⟩

/-- Inverting one emitted record: the exact dict the loop appends. -/
lemma processDay_emit {day : Json} {r : List (String × Json)}
    (h : processDay day = some (some r)) :
    ∃ dateV sahurS iftarS s24 i24,
      truthy dateV = true ∧
      to_24h_hhmm sahurS = some s24 ∧ to_24h_hhmm iftarS = some i24 ∧
      r = [(("date"), dateV), (("sahur"), Json.str s24),
           (("iftar"), Json.str i24),
           (("hijri_readable"), (pyGet day ("hijri_readable")).getD Json.null),
           (("day"), (pyGet day ("day")).getD Json.null)] := by
  unfold processDay at h
  cases h1 : pyGet day ("date") with
  | none => rw [h1] at h; simp at h
  | some dateV =>
    rw [h1] at h
    simp only [] at h
    cases h2 : pyGetD day ("time") (Json.obj []) with
    | none => rw [h2] at h; simp at h
    | some timeObj =>
      rw [h2] at h
      simp only [] at h
      cases h3 : pyGet timeObj ("sahur") with
      | none => rw [h3] at h; simp at h
      | some sahurV =>
        rw [h3] at h
        simp only [] at h
        cases h4 : pyGet timeObj ("iftar") with
        | none => rw [h4] at h; simp at h
        | some iftarV =>
          rw [h4] at h
          simp only [] at h
          by_cases htr : (!(truthy dateV && truthy sahurV && truthy iftarV)) = true
          · rw [if_pos htr] at h; simp at h
          · rw [if_neg htr] at h
            have habc : (truthy dateV && truthy sahurV && truthy iftarV) = true := by
              rcases Bool.eq_false_or_eq_true
                  (truthy dateV && truthy sahurV && truthy iftarV) with hx | hx
              · exact hx
              · exact absurd (by simp [hx]) htr
            cases sahurV with
            | str ss =>
              simp only [normTime] at h
              cases h5 : to_24h_hhmm ss with
              | none => rw [h5] at h; simp at h
              | some s24 =>
                rw [h5] at h
                simp only [] at h
                cases iftarV with
                | str is2 =>
                  simp only [normTime] at h
                  cases h6 : to_24h_hhmm is2 with
                  | none => rw [h6] at h; simp at h
                  | some i24 =>
                    rw [h6] at h
                    simp only [] at h
                    simp only [Option.some.injEq] at h
                    subst h
                    simp only [Bool.and_eq_true] at habc
                    exact ⟨dateV, ss, is2, s24, i24, habc.1.1, h5, h6, rfl⟩
                | null => simp [normTime] at h
                | bool b => simp [normTime] at h
                | num n => simp [normTime] at h
                | arr xs => simp [normTime] at h
                | obj fs => simp [normTime] at h
            | null => simp [normTime] at h
            | bool b => simp [normTime] at h
            | num n => simp [normTime] at h
            | arr xs => simp [normTime] at h
            | obj fs => simp [normTime] at h

/-- Two digits, a colon, two digits — the exact shape of every time string
the endpoint emits (hour and minute each 00–99). -/
def hhmm2 (s : String) : Bool :=
  match s.data with
  | [a, b, c, d, e] => a.isDigit && b.isDigit && c = ':' && d.isDigit && e.isDigit
  | _ => false

/-- Every success of `_to_24h_hhmm` has the `hhmm2` shape. -/
lemma to_24h_hhmm_hhmm2 {x y : String} (h : to_24h_hhmm x = some y) :
    hhmm2 y = true := by
  unfold to_24h_hhmm at h
  simp only [Option.map_eq_some'] at h
  obtain ⟨l, hl, rfl⟩ := h
  obtain ⟨hh, mm, h1, h2, rfl⟩ := to24hL_shape hl
  rw [pad2_eq hh h1, pad2_eq mm h2]
  show hhmm2 (String.mk _) = true
  simp only [hhmm2]
  simp [digitChar_isDigit (show hh / 10 ≤ 9 by omega),
        digitChar_isDigit (show hh % 10 ≤ 9 by omega),
        digitChar_isDigit (show mm / 10 ≤ 9 by omega),
        digitChar_isDigit (show mm % 10 ≤ 9 by omega)]

/-- Spec pattern for the C2 invariant: `HH:MM` with hour 00–23 and minute
00–59 (following the spec's FastingDayClean wording). -/
def specHHMM (s : String) : Bool :=
  match s.data with
  | [a, b, c, d, e] =>
      a.isDigit && b.isDigit && c = ':' && d.isDigit && e.isDigit &&
        (dval a * 10 + dval b ≤ 23) && (dval d * 10 + dval e ≤ 59)
  | _ => false

/-- C2 counterexample: a fast-path time `99:99` survives the pipeline
unchanged, so a successful response can carry an hour of 99 (violating the
claimed 00–23 bound); a second record shows the emitted `date` need not be a
string (upstream number 7 passes truthiness and is emitted as-is). -/
theorem c2_counterexample :
    get_ramadan_core (mkPayload
        [Json.obj [(("date"), Json.str ("2025-03-01")),
          (("time"), Json.obj [(("sahur"), Json.str ("99:99")),
            (("iftar"), Json.str ("5:48 PM"))])],
         Json.obj [(("date"), Json.num 7),
          (("time"), Json.obj [(("sahur"), Json.str ("5:42 AM")),
            (("iftar"), Json.str ("5:48 PM"))])]])
      = Outcome.ok
        [[(("date"), Json.str ("2025-03-01")),
          (("sahur"), Json.str ("99:99")),
          (("iftar"), Json.str ("17:48")),
          (("hijri_readable"), Json.null),
          (("day"), Json.null)],
         [(("date"), Json.num 7),
          (("sahur"), Json.str ("05:42")),
          (("iftar"), Json.str ("17:48")),
          (("hijri_readable"), Json.null),
          (("day"), Json.null)]] ∧
      specHHMM ("99:99") = false :=
  ⟨rfl, by decide⟩

/-- C2 (amended): every record of a successful response has a truthy `date`
value (in particular a non-empty string when it is a string), and `sahur` and
`iftar` strings of shape `HH:MM` with two digits each (00–99; the 00–23 /
00–59 bounds hold only for times that took the 12-hour path, not the
unvalidated fast path). -/
theorem c2_success_record_shape (p : Json) (out : List (List (String × Json)))
    (hout : get_ramadan_core p = Outcome.ok out)
    (r : List (String × Json)) (hr : r ∈ out) :
    (∃ dv, r.lookup ("date") = some dv ∧ truthy dv = true) ∧
    (∃ s, r.lookup ("sahur") = some (Json.str s) ∧ hhmm2 s = true) ∧
    (∃ i, r.lookup ("iftar") = some (Json.str i) ∧ hhmm2 i = true) := by
  obtain ⟨fasting, days, -, -, hall, -⟩ := core_ok_inv hout
  obtain ⟨d, -, hp⟩ := processAll_mem hall r hr
  obtain ⟨dateV, sahurS, iftarS, s24, i24, htr, hs, hi, rfl⟩ := processDay_emit hp
  refine ⟨⟨dateV, rfl, htr⟩, ⟨s24, rfl, to_24h_hhmm_hhmm2 hs⟩,
    ⟨i24, rfl, to_24h_hhmm_hhmm2 hi⟩⟩

/-- C2 witness: on the single-record example payload the emitted record has a
truthy date and two `HH:MM`-shaped times. -/
theorem c2_witness :
    (∃ dv, (([(("date"), Json.str ("2025-03-01")),
        (("sahur"), Json.str ("05:42")),
        (("iftar"), Json.str ("17:48")),
        (("hijri_readable"), Json.null),
        (("day"), Json.null)] : List (String × Json)).lookup ("date")) = some dv ∧
        truthy dv = true) ∧
    (∃ s, (([(("date"), Json.str ("2025-03-01")),
        (("sahur"), Json.str ("05:42")),
        (("iftar"), Json.str ("17:48")),
        (("hijri_readable"), Json.null),
        (("day"), Json.null)] : List (String × Json)).lookup ("sahur"))
          = some (Json.str s) ∧ hhmm2 s = true) ∧
    (∃ i, (([(("date"), Json.str ("2025-03-01")),
        (("sahur"), Json.str ("05:42")),
        (("iftar"), Json.str ("17:48")),
        (("hijri_readable"), Json.null),
        (("day"), Json.null)] : List (String × Json)).lookup ("iftar"))
          = some (Json.str i) ∧ hhmm2 i = true) :=
  c2_success_record_shape
    (mkPayload [Json.obj [(("date"), Json.str ("2025-03-01")),
      (("time"), Json.obj [(("sahur"), Json.str ("5:42 AM")),
        (("iftar"), Json.str ("5:48 PM"))])]])
    [[(("date"), Json.str ("2025-03-01")),
      (("sahur"), Json.str ("05:42")),
      (("iftar"), Json.str ("17:48")),
      (("hijri_readable"), Json.null),
      (("day"), Json.null)]]
    rfl _ (List.mem_cons_self _ _)

/-- C10: every emitted record carries exactly the five keys `date`, `sahur`,
`iftar`, `hijri_readable`, `day` in that order; and when the upstream record
omits `hijri_readable` or `day`, the key is still present with a null value. -/
theorem c10_record_keys :
    (∀ p out, get_ramadan_core p = Outcome.ok out → ∀ r ∈ out,
        r.map Prod.fst
          = [("date"), ("sahur"), ("iftar"), ("hijri_readable"), ("day")]) ∧
    (∀ fs r, processDay (Json.obj fs) = some (some r) →
        (fs.lookup ("hijri_readable") = none →
          r.lookup ("hijri_readable") = some Json.null) ∧
        (fs.lookup ("day") = none → r.lookup ("day") = some Json.null)) := by
  constructor
  · intro p out hout r hr
    obtain ⟨fasting, days, -, -, hall, -⟩ := core_ok_inv hout
    obtain ⟨d, -, hp⟩ := processAll_mem hall r hr
    obtain ⟨dateV, ss, is2, s24, i24, -, -, -, rfl⟩ := processDay_emit hp
    rfl
  · intro fs r hpr
    obtain ⟨dateV, ss, is2, s24, i24, -, -, -, rfl⟩ := processDay_emit hpr
    constructor
    · intro hnone
      have hred : (([(("date"), dateV), (("sahur"), Json.str s24),
          (("iftar"), Json.str i24),
          (("hijri_readable"),
            (pyGet (Json.obj fs) ("hijri_readable")).getD Json.null),
          (("day"), (pyGet (Json.obj fs) ("day")).getD Json.null)]
            : List (String × Json)).lookup ("hijri_readable"))
          = some ((fs.lookup ("hijri_readable")).getD Json.null) := rfl
      rw [hred, hnone]
      rfl
    · intro hnone
      have hred : (([(("date"), dateV), (("sahur"), Json.str s24),
          (("iftar"), Json.str i24),
          (("hijri_readable"),
            (pyGet (Json.obj fs) ("hijri_readable")).getD Json.null),
          (("day"), (pyGet (Json.obj fs) ("day")).getD Json.null)]
            : List (String × Json)).lookup ("day"))
          = some ((fs.lookup ("day")).getD Json.null) := rfl
      rw [hred, hnone]
      rfl

/-- C10 witness: the example record produced by the pipeline has exactly the
five keys in order. -/
theorem c10_witness :
    ([(("date"), Json.str ("2025-03-01")), (("sahur"), Json.str ("05:42")),
      (("iftar"), Json.str ("17:48")), (("hijri_readable"), Json.null),
      (("day"), Json.null)] : List (String × Json)).map Prod.fst
      = [("date"), ("sahur"), ("iftar"), ("hijri_readable"), ("day")] :=
  c10_record_keys.1
    (mkPayload [Json.obj [(("date"), Json.str ("2025-03-01")),
      (("time"), Json.obj [(("sahur"), Json.str ("5:42 AM")),
        (("iftar"), Json.str ("5:48 PM"))])]])
    [[(("date"), Json.str ("2025-03-01")), (("sahur"), Json.str ("05:42")),
      (("iftar"), Json.str ("17:48")), (("hijri_readable"), Json.null),
      (("day"), Json.null)]]
    rfl _ (List.mem_cons_self _ _)

/-- C8 counterexample: the body `{"data": {"fasting": 0}}` contains
`data.fasting` but not as a list; the claim predicts UpstreamShapeError, yet
the subscript succeeds and the `for` loop raises an uncaught `TypeError`
(HTTP 500), not the 502 shape error. -/
theorem c8_counterexample :
    dataFasting (Json.obj [(("data"), Json.obj [(("fasting"), Json.num 0)])])
        = some (Json.num 0) ∧
    get_ramadan_core (Json.obj [(("data"), Json.obj [(("fasting"), Json.num 0)])])
        = Outcome.crash ∧
    get_ramadan_core (Json.obj [(("data"), Json.obj [(("fasting"), Json.num 0)])])
        ≠ Outcome.shapeError :=
  ⟨rfl, rfl, fun hc => nomatch hc⟩

/-- C8 (amended): UpstreamShapeError is raised exactly when evaluating
`payload["data"]["fasting"]` itself fails (missing key or non-dict on the
path); a present non-list value passes the validation and leads to an
unhandled exception or, if vacuously iterable and empty, to the
empty-result error — never to UpstreamShapeError. -/
theorem c8_shape_error_iff (p : Json) :
    get_ramadan_core p = Outcome.shapeError ↔ dataFasting p = none := by
  unfold get_ramadan_core
  cases h1 : dataFasting p with
  | none => simp
  | some fasting =>
    simp only []
    cases h2 : pyIter fasting with
    | none => simp
    | some days =>
      simp only []
      cases h3 : processAll days with
      | none => simp
      | some out =>
        simp only []
        by_cases he : out.isEmpty
        · rw [if_pos he]; simp
        · rw [if_neg he]; simp

/-- C7: the endpoint never returns an empty list as a success, and whenever
every element of `data.fasting` is dropped by the filter (in particular when
the list is empty), it fails with the distinct EmptyResultError. -/
theorem c7_empty_result (days : List Json)
    (hdrop : ∀ d ∈ days, processDay d = some none) :
    (∀ p out, get_ramadan_core p = Outcome.ok out → out ≠ []) ∧
    get_ramadan_core (mkPayload days) = Outcome.emptyError := by
  constructor
  · intro p out hout
    obtain ⟨-, -, -, -, -, hne⟩ := core_ok_inv hout
    exact hne
  · have hall : processAll days = some [] := by
      induction days with
      | nil => rfl
      | cons d rest ih =>
        have hd := hdrop d (List.mem_cons_self d rest)
        simp only [processAll, hd]
        exact ih (fun x hx => hdrop x (List.mem_cons_of_mem d hx))
    have h1 : dataFasting (mkPayload days) = some (Json.arr days) := rfl
    have h2 : pyIter (Json.arr days) = some days := rfl
    unfold get_ramadan_core
    rw [h1]
    simp only []
    rw [h2]
    simp only []
    rw [hall]
    rfl

/-- C7 witness: with an empty `data.fasting` list the endpoint fails with the
empty-result error, and no success carries the empty list. -/
theorem c7_witness :
    get_ramadan_core (mkPayload []) = Outcome.emptyError :=
  (c7_empty_result [] (fun d hd => absurd hd (List.not_mem_nil d))).2

/-! ## C3/C4: filtering -/

/-- A field value that cannot make the loop body raise: absent, JSON null, or
a string.  (A truthy non-string time value would hit `AttributeError` inside
`_to_24h_hhmm`, outside the `except ValueError`.) -/
def strOrMissing : Option Json → Bool
  | none => true
  | some Json.null => true
  | some (Json.str _) => true
  | _ => false

/-- Scope of claim C3: a dict whose `date` and `time.sahur`/`time.iftar`
fields are strings, null, or absent, with `time` itself a dict or absent. -/
def recordLike : Json → Bool
  | Json.obj fs =>
      strOrMissing (fs.lookup ("date")) &&
      (match fs.lookup ("time") with
       | none => true
       | some (Json.obj tfs) =>
           strOrMissing (tfs.lookup ("sahur")) && strOrMissing (tfs.lookup ("iftar"))
       | some _ => false)
  | _ => false

/-- The claim's description of a record the fetcher drops: `date`,
`time.sahur` or `time.iftar` missing or empty (falsy), or a time string on
which normalization fails. -/
def specMalformed : Json → Bool
  | Json.obj fs =>
      match (fs.lookup ("time")).getD (Json.obj []) with
      | Json.obj tfs =>
          (!(truthy ((fs.lookup ("date")).getD Json.null)
             && truthy ((tfs.lookup ("sahur")).getD Json.null)
             && truthy ((tfs.lookup ("iftar")).getD Json.null))) ||
          (match (tfs.lookup ("sahur")).getD Json.null,
                 (tfs.lookup ("iftar")).getD Json.null with
           | Json.str ss, Json.str is2 =>
               (to_24h_hhmm ss).isNone || (to_24h_hhmm is2).isNone
           | _, _ => false)
      | _ => true
  | _ => true

/-- The loop body on a dict record, with the accessors evaluated. -/
lemma processDay_obj (fs tfs : List (String × Json))
    (htime : (fs.lookup ("time")).getD (Json.obj []) = Json.obj tfs) :
    processDay (Json.obj fs)
      = (if !(truthy ((fs.lookup ("date")).getD Json.null)
              && truthy ((tfs.lookup ("sahur")).getD Json.null)
              && truthy ((tfs.lookup ("iftar")).getD Json.null)) then some none
         else
           match normTime ((tfs.lookup ("sahur")).getD Json.null) with
           | none => none
           | some none => some none
           | some (some s24) =>
             match normTime ((tfs.lookup ("iftar")).getD Json.null) with
             | none => none
             | some none => some none
             | some (some i24) =>
               some (some
                 [(("date"), (fs.lookup ("date")).getD Json.null),
                  (("sahur"), Json.str s24), (("iftar"), Json.str i24),
                  (("hijri_readable"), (fs.lookup ("hijri_readable")).getD Json.null),
                  (("day"), (fs.lookup ("day")).getD Json.null)])) := by
  unfold processDay
  simp only [pyGet, pyGetD, htime, Option.getD_some]

/-- On record-like dicts the loop body never raises, and it drops a record
exactly when the claim's malformation condition holds. -/
lemma processDay_recordLike {d : Json} (h : recordLike d = true) :
    processDay d ≠ none ∧ (processDay d = some none ↔ specMalformed d = true) := by
  cases d with
  | null => simp [recordLike] at h
  | bool b => simp [recordLike] at h
  | num n => simp [recordLike] at h
  | str s => simp [recordLike] at h
  | arr xs => simp [recordLike] at h
  | obj fs =>
    simp only [recordLike, Bool.and_eq_true] at h
    obtain ⟨hdate, htimeOk⟩ := h
    have H : ∃ tfs, (fs.lookup ("time")).getD (Json.obj []) = Json.obj tfs ∧
        strOrMissing (tfs.lookup ("sahur")) = true ∧
        strOrMissing (tfs.lookup ("iftar")) = true := by
      cases htl : fs.lookup ("time") with
      | none => exact ⟨[], rfl, rfl, rfl⟩
      | some tv =>
        rw [htl] at htimeOk
        cases tv with
        | obj tfs =>
          simp only [Bool.and_eq_true] at htimeOk
          exact ⟨tfs, rfl, htimeOk.1, htimeOk.2⟩
        | null => simp at htimeOk
        | bool b => simp at htimeOk
        | num n => simp at htimeOk
        | str s => simp at htimeOk
        | arr xs => simp at htimeOk
    obtain ⟨tfs, htime, hsm, him⟩ := H
    rw [processDay_obj fs tfs htime]
    have hspec : specMalformed (Json.obj fs)
        = ((!(truthy ((fs.lookup ("date")).getD Json.null)
             && truthy ((tfs.lookup ("sahur")).getD Json.null)
             && truthy ((tfs.lookup ("iftar")).getD Json.null))) ||
           (match (tfs.lookup ("sahur")).getD Json.null,
                  (tfs.lookup ("iftar")).getD Json.null with
            | Json.str ss, Json.str is2 =>
                (to_24h_hhmm ss).isNone || (to_24h_hhmm is2).isNone
            | _, _ => false)) := by
      simp only [specMalformed, htime]
    rw [hspec]
    by_cases hA : (truthy ((fs.lookup ("date")).getD Json.null)
        && truthy ((tfs.lookup ("sahur")).getD Json.null)
        && truthy ((tfs.lookup ("iftar")).getD Json.null)) = true
    · rw [hA]
      simp only [Bool.not_true, if_false, Bool.false_or]
      simp only [Bool.and_eq_true] at hA
      obtain ⟨⟨-, hts⟩, hti⟩ := hA
      have hs : ∃ ss, (tfs.lookup ("sahur")).getD Json.null = Json.str ss := by
        cases hsl : tfs.lookup ("sahur") with
        | none => rw [hsl] at hts; simp [truthy] at hts
        | some v =>
          rw [hsl] at hsm hts
          cases v with
          | str ss => exact ⟨ss, rfl⟩
          | null => simp [truthy] at hts
          | bool b => simp [strOrMissing] at hsm
          | num n => simp [strOrMissing] at hsm
          | arr xs => simp [strOrMissing] at hsm
          | obj gs => simp [strOrMissing] at hsm
      have hi : ∃ is2, (tfs.lookup ("iftar")).getD Json.null = Json.str is2 := by
        cases hil : tfs.lookup ("iftar") with
        | none => rw [hil] at hti; simp [truthy] at hti
        | some v =>
          rw [hil] at him hti
          cases v with
          | str is2 => exact ⟨is2, rfl⟩
          | null => simp [truthy] at hti
          | bool b => simp [strOrMissing] at him
          | num n => simp [strOrMissing] at him
          | arr xs => simp [strOrMissing] at him
          | obj gs => simp [strOrMissing] at him
      obtain ⟨ss, hss⟩ := hs
      obtain ⟨is2, his⟩ := hi
      rw [hss, his]
      simp only [normTime]
      cases h5 : to_24h_hhmm ss with
      | none => simp
      | some s24 =>
        simp only [Option.isNone_some, Bool.false_or]
        cases h6 : to_24h_hhmm is2 with
        | none => simp
        | some i24 => simp
    · have hA' : (truthy ((fs.lookup ("date")).getD Json.null)
          && truthy ((tfs.lookup ("sahur")).getD Json.null)
          && truthy ((tfs.lookup ("iftar")).getD Json.null)) = false := by
        rcases Bool.eq_false_or_eq_true (truthy ((fs.lookup ("date")).getD Json.null)
          && truthy ((tfs.lookup ("sahur")).getD Json.null)
          && truthy ((tfs.lookup ("iftar")).getD Json.null)) with hx | hx
        · exact absurd hx hA
        · exact hx
      rw [hA']
      simp

/-- When no iteration raises, the loop output is the order-preserving
`filterMap` of the per-record results. -/
lemma processAll_filterMap {days : List Json}
    (h : ∀ d ∈ days, processDay d ≠ none) :
    processAll days = some (days.filterMap (fun d => (processDay d).bind id)) := by
  induction days with
  | nil => rfl
  | cons d rest ih =>
    have hd := h d (List.mem_cons_self d rest)
    have ihr := ih (fun x hx => h x (List.mem_cons_of_mem d hx))
    cases hpd : processDay d with
    | none => exact absurd hpd hd
    | some o =>
      cases o with
      | none => simp [processAll, hpd, List.filterMap_cons, ihr]
      | some r => simp [processAll, hpd, List.filterMap_cons, ihr]

/-- C3: over record-like `data.fasting` elements the loop raises no error;
each element satisfying the claim's malformation condition (missing or empty
`date`/`time.sahur`/`time.iftar`, or a time that fails to normalize) is
dropped, exactly those; and the surviving records are returned as the
order-preserving `filterMap` of the input (unchanged count and relative
order), the endpoint succeeding whenever any survive. -/
theorem c3_malformed_silently_dropped (days : List Json)
    (h : ∀ d ∈ days, recordLike d = true) :
    processAll days = some (days.filterMap (fun d => (processDay d).bind id)) ∧
    (∀ d ∈ days, (specMalformed d = true ↔ (processDay d).bind id = none)) ∧
    (days.filterMap (fun d => (processDay d).bind id) ≠ [] →
      get_ramadan_core (mkPayload days)
        = Outcome.ok (days.filterMap (fun d => (processDay d).bind id))) := by
  have hnc : ∀ d ∈ days, processDay d ≠ none :=
    fun d hd => (processDay_recordLike (h d hd)).1
  have hall := processAll_filterMap hnc
  refine ⟨hall, ?_, ?_⟩
  · intro d hd
    obtain ⟨hne, hiff⟩ := processDay_recordLike (h d hd)
    constructor
    · intro hm
      rw [hiff.mpr hm]
      rfl
    · intro hb
      apply hiff.mp
      cases hpd : processDay d with
      | none => exact absurd hpd hne
      | some o =>
        cases o with
        | none => rfl
        | some r => rw [hpd] at hb; simp at hb
  · intro hnonempty
    unfold get_ramadan_core
    have h1 : dataFasting (mkPayload days) = some (Json.arr days) := rfl
    rw [h1]
    simp only []
    have h2 : pyIter (Json.arr days) = some days := rfl
    rw [h2]
    simp only []
    rw [hall]
    simp only []
    rw [if_neg (by simpa using hnonempty)]

/-- C3 witness: of two record-like upstream days, the one lacking
`time.sahur` is dropped and the other survives alone, in order. -/
theorem c3_witness :
    get_ramadan_core (mkPayload
        [Json.obj [(("date"), Json.str ("2025-03-01")),
          (("time"), Json.obj [(("sahur"), Json.str ("5:42 AM")),
            (("iftar"), Json.str ("5:48 PM"))])],
         Json.obj [(("date"), Json.str ("2025-03-02")),
          (("time"), Json.obj [(("iftar"), Json.str ("5:50 PM"))])]])
      = Outcome.ok
        [[(("date"), Json.str ("2025-03-01")),
          (("sahur"), Json.str ("05:42")),
          (("iftar"), Json.str ("17:48")),
          (("hijri_readable"), Json.null),
          (("day"), Json.null)]] ∧
    specMalformed (Json.obj [(("date"), Json.str ("2025-03-02")),
        (("time"), Json.obj [(("iftar"), Json.str ("5:50 PM"))])]) = true := by
  have h := c3_malformed_silently_dropped
    [Json.obj [(("date"), Json.str ("2025-03-01")),
      (("time"), Json.obj [(("sahur"), Json.str ("5:42 AM")),
        (("iftar"), Json.str ("5:48 PM"))])],
     Json.obj [(("date"), Json.str ("2025-03-02")),
      (("time"), Json.obj [(("iftar"), Json.str ("5:50 PM"))])]]
    (by decide)
  exact ⟨h.2.2 (fun hc => nomatch hc), by decide⟩

/-- Scope of claim C4: a dict with non-empty string `date`, and a `time` dict
with non-empty string `sahur` and `iftar` on which normalization succeeds. -/
def specWellFormed : Json → Bool
  | Json.obj fs =>
      (match fs.lookup ("date") with
       | some (Json.str ds) => !ds.isEmpty
       | _ => false) &&
      (match fs.lookup ("time") with
       | some (Json.obj tfs) =>
           (match tfs.lookup ("sahur") with
            | some (Json.str ss) => !ss.isEmpty && (to_24h_hhmm ss).isSome
            | _ => false) &&
           (match tfs.lookup ("iftar") with
            | some (Json.str is2) => !is2.isEmpty && (to_24h_hhmm is2).isSome
            | _ => false)
       | _ => false)
  | _ => false

/-- The clean record the endpoint produces for a well-formed upstream day. -/
def cleanFn : Json → List (String × Json)
  | Json.obj fs =>
      (match (fs.lookup ("time")).getD (Json.obj []) with
       | Json.obj tfs =>
           [(("date"), (fs.lookup ("date")).getD Json.null),
            (("sahur"), Json.str
              (match (tfs.lookup ("sahur")).getD Json.null with
               | Json.str ss => (to_24h_hhmm ss).getD ("")
               | _ => ("") )),
            (("iftar"), Json.str
              (match (tfs.lookup ("iftar")).getD Json.null with
               | Json.str is2 => (to_24h_hhmm is2).getD ("")
               | _ => ("") )),
            (("hijri_readable"), (fs.lookup ("hijri_readable")).getD Json.null),
            (("day"), (fs.lookup ("day")).getD Json.null)]
       | _ => [])
  | _ => []

/-- A well-formed day is emitted as its clean record. -/
lemma processDay_of_wf {d : Json} (h : specWellFormed d = true) :
    processDay d = some (some (cleanFn d)) := by
  cases d with
  | null => simp [specWellFormed] at h
  | bool b => simp [specWellFormed] at h
  | num n => simp [specWellFormed] at h
  | str s => simp [specWellFormed] at h
  | arr xs => simp [specWellFormed] at h
  | obj fs =>
    simp only [specWellFormed, Bool.and_eq_true] at h
    obtain ⟨hdate, htime⟩ := h
    cases hdl : fs.lookup ("date") with
    | none => rw [hdl] at hdate; simp at hdate
    | some dv =>
      rw [hdl] at hdate
      cases dv with
      | null => simp at hdate
      | bool b => simp at hdate
      | num n => simp at hdate
      | arr xs => simp at hdate
      | obj gs => simp at hdate
      | str ds =>
        cases htl : fs.lookup ("time") with
        | none => rw [htl] at htime; simp at htime
        | some tv =>
          rw [htl] at htime
          cases tv with
          | null => simp at htime
          | bool b => simp at htime
          | num n => simp at htime
          | arr xs => simp at htime
          | str s2 => simp at htime
          | obj tfs =>
            simp only [Bool.and_eq_true] at htime
            obtain ⟨hsah, hift⟩ := htime
            cases hsl : tfs.lookup ("sahur") with
            | none => rw [hsl] at hsah; simp at hsah
            | some sv =>
              rw [hsl] at hsah
              cases sv with
              | null => simp at hsah
              | bool b => simp at hsah
              | num n => simp at hsah
              | arr xs => simp at hsah
              | obj gs => simp at hsah
              | str ss =>
                cases hil : tfs.lookup ("iftar") with
                | none => rw [hil] at hift; simp at hift
                | some iv =>
                  rw [hil] at hift
                  cases iv with
                  | null => simp at hift
                  | bool b => simp at hift
                  | num n => simp at hift
                  | arr xs => simp at hift
                  | obj gs => simp at hift
                  | str is2 =>
                    simp only [Bool.and_eq_true] at hsah hift
                    obtain ⟨hss, hs24⟩ := hsah
                    obtain ⟨his, hi24⟩ := hift
                    obtain ⟨s24, hs24e⟩ := Option.isSome_iff_exists.mp hs24
                    obtain ⟨i24, hi24e⟩ := Option.isSome_iff_exists.mp hi24
                    have htime2 : (fs.lookup ("time")).getD (Json.obj [])
                        = Json.obj tfs := by rw [htl]; rfl
                    rw [processDay_obj fs tfs htime2]
                    rw [hdl, hsl, hil]
                    simp only [Option.getD_some]
                    rw [show truthy (Json.str ds) = true by simpa [truthy] using hdate,
                        show truthy (Json.str ss) = true by simpa [truthy] using hss,
                        show truthy (Json.str is2) = true by simpa [truthy] using his]
                    simp only [normTime, hs24e, hi24e, cleanFn, htime2, hdl, hsl, hil,
                      Option.getD_some]
                    rfl

/-- Over all-well-formed days, the loop emits one clean record per day. -/
lemma processAll_of_wf {days : List Json}
    (h : ∀ d ∈ days, specWellFormed d = true) :
    processAll days = some (days.map cleanFn) := by
  induction days with
  | nil => rfl
  | cons d rest ih =>
    have hd := processDay_of_wf (h d (List.mem_cons_self d rest))
    have ihr := ih (fun x hx => h x (List.mem_cons_of_mem d hx))
    simp [processAll, hd, ihr]

/-- C4: a payload whose `data.fasting` holds at least one record, all
well-formed, yields a success with exactly one clean record per upstream day,
in upstream order. -/
theorem c4_all_well_formed (days : List Json)
    (h : ∀ d ∈ days, specWellFormed d = true) (hne : days ≠ []) :
    get_ramadan_core (mkPayload days) = Outcome.ok (days.map cleanFn) ∧
    (days.map cleanFn).length = days.length ∧
    (∀ d ∈ days, processDay d = some (some (cleanFn d))) := by
  refine ⟨?_, List.length_map days cleanFn, fun d hd => processDay_of_wf (h d hd)⟩
  unfold get_ramadan_core
  have h1 : dataFasting (mkPayload days) = some (Json.arr days) := rfl
  rw [h1]
  simp only []
  have h2 : pyIter (Json.arr days) = some days := rfl
  rw [h2]
  simp only []
  rw [processAll_of_wf h]
  simp only []
  rw [if_neg (by simpa using hne)]

/-- C4 witness: the spec's end-to-end example payload maps to exactly the
documented single clean record. -/
theorem c4_witness :
    get_ramadan_core (mkPayload
        [Json.obj [(("date"), Json.str ("2025-03-01")), (("day"), Json.num 1),
          (("hijri_readable"), Json.str ("1 Ramadan 1446")),
          (("time"), Json.obj [(("sahur"), Json.str ("5:42 AM")),
            (("iftar"), Json.str ("5:48 PM"))])]])
      = Outcome.ok
        [[(("date"), Json.str ("2025-03-01")),
          (("sahur"), Json.str ("05:42")),
          (("iftar"), Json.str ("17:48")),
          (("hijri_readable"), Json.str ("1 Ramadan 1446")),
          (("day"), Json.num 1)]] :=
  (c4_all_well_formed
    [Json.obj [(("date"), Json.str ("2025-03-01")), (("day"), Json.num 1),
      (("hijri_readable"), Json.str ("1 Ramadan 1446")),
      (("time"), Json.obj [(("sahur"), Json.str ("5:42 AM")),
        (("iftar"), Json.str ("5:48 PM"))])]]
    (by decide) (fun hc => nomatch hc)).1

/-! ## C5: exact failure characterization of the normalizer -/

/-- The 12-hour pattern exactly as claim C5 states it: `H:MM AM|PM` with
case-sensitive AM/PM, a single space, leading-zero-optional 1–2 digit hour
with value 1–12, and a two-digit minute 00–59 (spec wording). -/
def spec12h (s : String) : Bool :=
  match s.data with
  | [a, ':', c, d, ' ', p, 'M'] =>
      a.isDigit && 1 ≤ dval a && ('0' ≤ c && c ≤ '5') && d.isDigit
        && (p = 'A' || p = 'P')
  | [a, b, ':', c, d, ' ', p, 'M'] =>
      a.isDigit && b.isDigit && 1 ≤ dval a * 10 + dval b
        && dval a * 10 + dval b ≤ 12 && ('0' ≤ c && c ≤ '5') && d.isDigit
        && (p = 'A' || p = 'P')
  | _ => false

/-- C5 counterexample: `5:42 am` (lowercase meridiem) matches neither the
fast-path pattern nor the claim's case-sensitive 12-hour pattern, yet the
normalizer succeeds on it — `strptime`'s `%p` is case-insensitive. -/
theorem c5_counterexample :
    to_24h_hhmm ("5:42 am") = some ("05:42") ∧
      matchesFast (String.data ("5:42 am")) = false ∧
      spec12h ("5:42 am") = false :=
  ⟨by decide, by decide, by decide⟩

/-- Hour field of the `%I` pattern: `1[0-2]|0[1-9]|[1-9]`. -/
def isHourRep : Str → Bool
  | [a] => '1' ≤ a && a ≤ '9'
  | [a, b] => (a = '0' && ('1' ≤ b && b ≤ '9')) || (a = '1' && ('0' ≤ b && b ≤ '2'))
  | _ => false

/-- Minute field of the `%M` pattern: `[0-5]\d|\d`. -/
def isMinRep : Str → Bool
  | [a] => a.isDigit
  | [a, b] => ('0' ≤ a && a ≤ '5') && b.isDigit
  | _ => false

/-- Meridiem field of the `%p` pattern, case-insensitive. -/
def isMeridiemRep : Str → Bool
  | [a, m] => ((a = 'A' || a = 'a') || (a = 'P' || a = 'p')) && (m = 'M' || m = 'm')
  | _ => false

/-- After the minute: one or more whitespace characters then the meridiem,
consuming the whole rest. -/
def wsMeridiem (r : Str) : Bool :=
  !(r.takeWhile isWS).isEmpty && isMeridiemRep (r.dropWhile isWS)

/-- The minute and everything after it, with a `k`-character minute field. -/
def tailDecomp (post : Str) (k : Nat) : Bool :=
  isMinRep (post.take k) && wsMeridiem (post.drop k)

/-- The full 12-hour pattern `strptime` actually accepts: an `%I` hour field
up to the first colon, then a 1- or 2-character `%M` minute field, one or
more whitespace characters, and a case-insensitive meridiem ending the
string. -/
def matches12ci (s : Str) : Bool :=
  isHourRep (s.takeWhile (fun c => c ≠ ':')) &&
    (tailDecomp ((s.dropWhile (fun c => c ≠ ':')).drop 1) 1 ||
     tailDecomp ((s.dropWhile (fun c => c ≠ ':')).drop 1) 2)

lemma parseMeridiem_isSome (x : Str) :
    (parseMeridiem x).isSome = isMeridiemRep x := by
  match x with
  | [] => rfl
  | [a] => rfl
  | a :: b :: c :: t => rfl
  | [a, m] =>
    simp only [parseMeridiem, isMeridiemRep]
    generalize (a = 'A' : Bool) = b1
    generalize (a = 'a' : Bool) = b2
    generalize (a = 'P' : Bool) = b3
    generalize (a = 'p' : Bool) = b4
    generalize (m = 'M' : Bool) = b5
    generalize (m = 'm' : Bool) = b6
    revert b1 b2 b3 b4 b5 b6
    decide

lemma parseWS_meridiem_isSome (r : Str) :
    ((parseWSplus r).bind parseMeridiem).isSome = wsMeridiem r := by
  cases r with
  | nil => rfl
  | cons c t =>
    simp only [parseWSplus, wsMeridiem]
    by_cases hw : isWS c
    · rw [if_pos hw, List.takeWhile_cons_of_pos hw, List.dropWhile_cons_of_pos hw]
      simp [parseMeridiem_isSome]
    · rw [if_neg hw, List.takeWhile_cons_of_neg hw]
      simp

lemma isDigit_of_a05 {a : Char} (h : ('0' ≤ a && a ≤ '5') = true) :
    a.isDigit = true := by
  simp only [Bool.and_eq_true, decide_eq_true_eq] at h
  have := range05_enum h.1 h.2
  fin_cases this <;> decide

lemma parseMin_tail_isSome (post : Str) :
    ((parseMin post).bind
        (fun mr => (parseWSplus mr.2).bind parseMeridiem)).isSome
      = (tailDecomp post 1 || tailDecomp post 2) := by
  match post with
  | [] => rfl
  | [a] =>
    simp only [parseMin]
    by_cases ha : a.isDigit
    · rw [if_pos ha]
      simp [tailDecomp, isMinRep, wsMeridiem, ha, parseWSplus]
    · rw [if_neg ha]
      simp only [Bool.not_eq_true] at ha
      simp [tailDecomp, isMinRep, wsMeridiem, ha]
  | a :: b :: rest =>
    simp only [parseMin]
    by_cases h2 : ('0' ≤ a && a ≤ '5') && b.isDigit
    · rw [if_pos h2]
      have hbd : b.isDigit = true := (Bool.and_eq_true .. |>.mp h2).2
      have hbw : isWS b = false := (isDigit_facts hbd).1
      rw [Option.some_bind, parseWS_meridiem_isSome]
      have h1d : tailDecomp (a :: b :: rest) 1 = false := by
        simp [tailDecomp, wsMeridiem, List.takeWhile_cons_of_neg, hbw]
      have h2d : tailDecomp (a :: b :: rest) 2 = wsMeridiem rest := by
        simp [tailDecomp, isMinRep, h2]
      rw [h1d, h2d]
      simp
    · rw [if_neg h2]
      by_cases ha : a.isDigit
      · rw [if_pos ha]
        rw [Option.some_bind, parseWS_meridiem_isSome]
        have h1d : tailDecomp (a :: b :: rest) 1 = wsMeridiem (b :: rest) := by
          simp [tailDecomp, isMinRep, ha]
        have h2d : tailDecomp (a :: b :: rest) 2 = false := by
          have h2f : (('0' ≤ a && a ≤ '5') && b.isDigit) = false := by
            rcases Bool.eq_false_or_eq_true (('0' ≤ a && a ≤ '5') && b.isDigit)
              with hx | hx
            · exact absurd hx h2
            · exact hx
          simp [tailDecomp, isMinRep, h2f]
        rw [h1d, h2d]
        simp
      · rw [if_neg ha]
        simp only [Bool.not_eq_true] at ha
        have h05 : ('0' ≤ a && a ≤ '5') = false := by
          rcases Bool.eq_false_or_eq_true ('0' ≤ a && a ≤ '5') with hx | hx
          · exact absurd (isDigit_of_a05 hx) (by simp [ha])
          · exact hx
        simp [tailDecomp, isMinRep, ha, h05]

lemma isDigit_of_c19 {c : Char} (h : ('1' ≤ c && c ≤ '9') = true) :
    c.isDigit = true := by
  simp only [Bool.and_eq_true, decide_eq_true_eq] at h
  have := range19_enum h.1 h.2
  fin_cases this <;> decide

lemma isDigit_of_c02 {c : Char} (h : ('0' ≤ c && c ≤ '2') = true) :
    c.isDigit = true := by
  simp only [Bool.and_eq_true, decide_eq_true_eq] at h
  have := range02_enum h.1 h.2
  fin_cases this <;> decide

lemma ne_colon_b {c : Char} (h : c.isDigit = true) : (decide (c ≠ ':')) = true := by
  simpa using (isDigit_facts h).2.1

lemma hourTail_isSome (h12 : Nat) (r2 : Str) :
    ((parseMin r2).bind (fun mr =>
        (parseWSplus mr.2).bind (fun r4 =>
          (parseMeridiem r4).map (fun pm =>
            ((if pm then (if h12 = 12 then 12 else h12 + 12)
              else (if h12 = 12 then 0 else h12)), mr.1))))).isSome
      = (tailDecomp r2 1 || tailDecomp r2 2) := by
  rw [← parseMin_tail_isSome]
  cases hm : parseMin r2 with
  | none => rfl
  | some mr =>
    simp only [Option.some_bind]
    cases hw : parseWSplus mr.2 with
    | none => rfl
    | some r4 =>
      simp only [Option.some_bind]
      cases hme : parseMeridiem r4 with
      | none => rfl
      | some pm => rfl

/-- `strptime("%I:%M %p")` succeeds exactly on the strings matched by the
split-based pattern `matches12ci`. -/
lemma strptimeIMp_isSome (s : Str) :
    (strptimeIMp s).isSome = matches12ci s := by
  match s with
  | [] => rfl
  | [c] =>
    simp only [strptimeIMp, parseHour, matches12ci]
    by_cases hc : ('1' ≤ c && c ≤ '9')
    · rw [if_pos hc]
      have hcne := ne_colon_b (isDigit_of_c19 hc)
      rw [List.takeWhile_cons_of_pos (by exact hcne), List.dropWhile_cons_of_pos (by exact hcne)]
      simp [isHourRep, hc, tailDecomp, isMinRep, wsMeridiem]
    · rw [if_neg hc]
      rw [Bool.not_eq_true] at hc
      by_cases hcol : c = ':'
      · subst hcol
        rw [List.takeWhile_cons_of_neg (by simp)]
        simp [isHourRep]
      · rw [List.takeWhile_cons_of_pos (by simpa using hcol)]
        simp [isHourRep, hc]
  | a :: c :: rest =>
    simp only [strptimeIMp, parseHour, matches12ci]
    by_cases ha1 : a = '1'
    · subst ha1
      rw [if_pos rfl]
      by_cases hc02 : ('0' ≤ c && c ≤ '2')
      · rw [if_pos hc02]
        have hcne := ne_colon_b (isDigit_of_c02 hc02)
        rw [List.takeWhile_cons_of_pos (by decide),
            List.takeWhile_cons_of_pos (by exact hcne),
            List.dropWhile_cons_of_pos (by decide),
            List.dropWhile_cons_of_pos (by exact hcne)]
        cases rest with
        | nil =>
          simp [isHourRep, hc02, tailDecomp, isMinRep, wsMeridiem]
        | cons e r2 =>
          simp only [Option.some_bind]
          by_cases hecol : e = ':'
          · subst hecol
            rw [if_pos rfl]
            rw [List.takeWhile_cons_of_neg (by simp),
                List.dropWhile_cons_of_neg (by simp)]
            rw [hourTail_isSome]
            simp [isHourRep, hc02]
          · rw [if_neg hecol]
            rw [List.takeWhile_cons_of_pos (by simpa using hecol)]
            simp [isHourRep]
      · rw [if_neg hc02]
        rw [Bool.not_eq_true] at hc02
        simp only [Option.some_bind]
        by_cases hcol : c = ':'
        · subst hcol
          rw [if_pos rfl]
          rw [List.takeWhile_cons_of_pos (by decide),
              List.takeWhile_cons_of_neg (by simp),
              List.dropWhile_cons_of_pos (by decide),
              List.dropWhile_cons_of_neg (by simp)]
          rw [hourTail_isSome]
          simp [isHourRep]
        · rw [if_neg hcol]
          rw [List.takeWhile_cons_of_pos (by decide),
              List.takeWhile_cons_of_pos (by simpa using hcol)]
          cases htw : rest.takeWhile (fun x => decide (x ≠ ':')) with
          | nil => simp [isHourRep, hc02]
          | cons f u => simp [isHourRep]
    · rw [if_neg ha1]
      by_cases ha0 : a = '0'
      · subst ha0
        rw [if_pos rfl]
        by_cases hc19 : ('1' ≤ c && c ≤ '9')
        · rw [if_pos hc19]
          have hcne := ne_colon_b (isDigit_of_c19 hc19)
          rw [List.takeWhile_cons_of_pos (by decide),
              List.takeWhile_cons_of_pos (by exact hcne),
              List.dropWhile_cons_of_pos (by decide),
              List.dropWhile_cons_of_pos (by exact hcne)]
          cases rest with
          | nil =>
            simp [isHourRep, hc19, tailDecomp, isMinRep, wsMeridiem]
          | cons e r2 =>
            simp only [Option.some_bind]
            by_cases hecol : e = ':'
            · subst hecol
              rw [if_pos rfl]
              rw [List.takeWhile_cons_of_neg (by simp),
                  List.dropWhile_cons_of_neg (by simp)]
              rw [hourTail_isSome]
              simp [isHourRep, hc19]
            · rw [if_neg hecol]
              rw [List.takeWhile_cons_of_pos (by simpa using hecol)]
              simp [isHourRep]
        · rw [if_neg hc19]
          rw [Bool.not_eq_true] at hc19
          by_cases hcol : c = ':'
          · subst hcol
            rw [List.takeWhile_cons_of_pos (by decide),
                List.takeWhile_cons_of_neg (by simp)]
            simp [isHourRep]
          · rw [List.takeWhile_cons_of_pos (by decide),
                List.takeWhile_cons_of_pos (by simpa using hcol)]
            cases htw : rest.takeWhile (fun x => decide (x ≠ ':')) with
            | nil => simp [isHourRep, hc19]
            | cons f u => simp [isHourRep]
      · rw [if_neg ha0]
        by_cases ha19 : ('1' ≤ a && a ≤ '9')
        · rw [if_pos ha19]
          have hane := ne_colon_b (isDigit_of_c19 ha19)
          simp only [Option.some_bind]
          by_cases hcol : c = ':'
          · subst hcol
            rw [if_pos rfl]
            rw [List.takeWhile_cons_of_pos (by exact hane),
                List.takeWhile_cons_of_neg (by simp),
                List.dropWhile_cons_of_pos (by exact hane),
                List.dropWhile_cons_of_neg (by simp)]
            rw [hourTail_isSome]
            simp [isHourRep, ha19]
          · rw [if_neg hcol]
            rw [List.takeWhile_cons_of_pos (by exact hane),
                List.takeWhile_cons_of_pos (by simpa using hcol)]
            cases htw : rest.takeWhile (fun x => decide (x ≠ ':')) with
            | nil => simp [isHourRep, ha1, ha0]
            | cons f u => simp [isHourRep]
        · rw [if_neg ha19]
          rw [Bool.not_eq_true] at ha19
          by_cases hacol : a = ':'
          · subst hacol
            rw [List.takeWhile_cons_of_neg (by simp)]
            simp [isHourRep]
          · rw [List.takeWhile_cons_of_pos (by simpa using hacol)]
            by_cases hcol : c = ':'
            · subst hcol
              rw [List.takeWhile_cons_of_neg (by simp)]
              simp [isHourRep, ha19]
            · rw [List.takeWhile_cons_of_pos (by simpa using hcol)]
              cases htw : rest.takeWhile (fun x => decide (x ≠ ':')) with
              | nil => simp [isHourRep, ha1, ha0]
              | cons f u => simp [isHourRep]

/-- C5 (amended): the normalizer fails exactly when its stripped input
matches neither the fast-path pattern `\d{1,2}:\d{2}` nor the 12-hour
pattern `strptime` accepts: hour field `1[0-2]|0[1-9]|[1-9]`, colon, minute
field `[0-5]\d|\d`, one or more whitespace characters, and a
case-insensitive `AM`/`PM` ending the string. -/
theorem c5_failure_characterization (s : String) :
    to_24h_hhmm s = none ↔
      (matchesFast (pstrip s.data) = false ∧
       matches12ci (pstrip s.data) = false) := by
  simp only [to_24h_hhmm, Option.map_eq_none']
  simp only [to24hL]
  by_cases hf : matchesFast (pstrip s.data)
  · rw [if_pos hf]
    simp [hf]
  · rw [if_neg hf]
    rw [Bool.not_eq_true] at hf
    simp only [Option.map_eq_none', hf, true_and]
    rw [← strptimeIMp_isSome]
    cases hs : strptimeIMp (pstrip s.data) with
    | none => simp
    | some v => simp

end MTC
